import Mathlib

/-!
Verification of the request-lifecycle pipeline of vue-fastapi-admin.

This file gives a shallow embedding of the request-processing core of the
repository (app/core/ctx.py, app/core/bgtask.py, app/core/dependency.py,
app/core/middlewares.py) and proves or refutes the specification's claims
about it.  Python values produced by json.loads are modelled by the `Json`
inductive; the external collaborators (the datastore, jwt.decode,
json.loads, charset encoding) are passed in as explicit function
parameters, mirroring how the code consumes them.
-/

namespace VueFastapiAdmin

/-! ## JSON values: the model of Python values produced by json.loads -/

/-- Model of a Python value as produced by json.loads: None, bool, number,
string, list, dict.  Dicts are association lists with unique string keys
(json.loads always yields string keys). -/
inductive Json where
  | null : Json
  | bool (b : Bool) : Json
  | num (n : Int) : Json
  | str (s : String) : Json
  | arr (elems : List Json) : Json
  | obj (entries : List (String × Json)) : Json
deriving Repr, Inhabited

/-! ## Data model (app/models/admin.py, as consumed by the pipeline) -/

/-- An Api row: an allowed (http method, path) pair attached to roles. -/
structure Api where
  method : String
  path : String
deriving Repr, DecidableEq

/-- A Role row: a named bundle of Api permissions (many-to-many with users). -/
structure Role where
  name : String
  apis : List Api
deriving Repr, DecidableEq

/-- A User row as the pipeline reads it: id, username, superuser flag and
the user's roles (the many-to-many `roles` relation, already fetched). -/
structure User where
  id : Int
  username : String
  is_superuser : Bool
  roles : List Role
deriving Repr, DecidableEq

/-! ## PermissionControl.has_permission (app/core/dependency.py, lines 56-78) -/

/-- Outcome of a dependency check: either it returns normally or it raises
HTTPException(status_code, detail). -/
inductive PermResult where
  | allowed : PermResult
  | denied (statusCode : Nat) (detail : String) : PermResult
deriving Repr, DecidableEq

/-- The permission set the code builds:
`list(set((api.method, api.path) for api in sum(apis, [])))` where
`apis = [await role.apis for role in roles]`.  `sum(apis, [])` is a left
fold of list concatenation starting from `[]`; `list(set(...))`
deduplicates. -/
def permissionApis (current_user : User) : List (String × String) :=
  ((((current_user.roles.map Role.apis).foldl (· ++ ·) []).map
      (fun a => (a.method, a.path))).dedup)

/-- Embedding of `PermissionControl.has_permission`:
superuser → return; no roles → 403 "The user is not bound to a role";
otherwise 403 unless the exact (method, path) pair is in the deduplicated
union of the roles' api sets. -/
def has_permission (current_user : User) (method path : String) : PermResult :=
  if current_user.is_superuser then .allowed
  else if current_user.roles.isEmpty then
    .denied 403 "The user is not bound to a role"
  else if (method, path) ∈ permissionApis current_user then .allowed
  else .denied 403 ("Permission denied method:" ++ method ++ " path:" ++ path)

/-- Left-folding list concatenation from an initial list is the initial
list followed by the join. -/
theorem foldl_append_eq_join {α : Type} (ls : List (List α)) (init : List α) :
    ls.foldl (· ++ ·) init = init ++ ls.flatten := by
  induction ls generalizing init with
  | nil => simp
  | cons hd tl ih => simp [ih, List.append_assoc]

/-- Membership in the deduplicated permission union is membership in some
role's api list. -/
theorem mem_permissionApis (u : User) (method path : String) :
    (method, path) ∈ permissionApis u ↔
      ∃ r ∈ u.roles, ∃ a ∈ r.apis, a.method = method ∧ a.path = path := by
  unfold permissionApis
  rw [List.mem_dedup, foldl_append_eq_join, List.nil_append, List.mem_map]
  constructor
  · rintro ⟨a, ha, hpair⟩
    rw [List.mem_flatten] at ha
    obtain ⟨l, hl, hal⟩ := ha
    rw [List.mem_map] at hl
    obtain ⟨r, hr, rfl⟩ := hl
    exact ⟨r, hr, a, hal, congrArg Prod.fst hpair, congrArg Prod.snd hpair⟩
  · rintro ⟨r, hr, a, ha, hm, hp⟩
    refine ⟨a, ?_, by rw [hm, hp]⟩
    rw [List.mem_flatten]
    exact ⟨r.apis, List.mem_map.mpr ⟨r, hr, rfl⟩, ha⟩

/-- C4: for every resolved identity and requested (method, path): a superuser
is allowed unconditionally, independently of the role set; a non-superuser
with an empty role set is denied with 403 and the not-bound-to-a-role
message; otherwise access is allowed iff the exact (method, path) pair
belongs to the deduplicated union of the permission sets of the user's
roles, and is denied with 403 and a message naming the method and path
otherwise. -/
theorem c4_has_permission_spec (u : User) (method path : String) :
    (u.is_superuser = true →
      ∀ rs : List Role, has_permission { u with roles := rs } method path = .allowed) ∧
    (u.is_superuser = false → u.roles = [] →
      has_permission u method path = .denied 403 "The user is not bound to a role") ∧
    (u.is_superuser = false → u.roles ≠ [] →
      ((has_permission u method path = .allowed ↔
          ∃ r ∈ u.roles, ∃ a ∈ r.apis, a.method = method ∧ a.path = path) ∧
        (¬ (∃ r ∈ u.roles, ∃ a ∈ r.apis, a.method = method ∧ a.path = path) →
          has_permission u method path =
            .denied 403 ("Permission denied method:" ++ method ++ " path:" ++ path)))) := by
  refine ⟨?_, ?_, ?_⟩
  · intro hs rs
    simp [has_permission, hs]
  · intro hs hr
    simp [has_permission, hs, hr]
  · intro hs hr
    have hne : ¬ u.roles.isEmpty := by
      simpa [List.isEmpty_iff] using hr
    constructor
    · constructor
      · intro hall
        by_contra hnot
        rw [← mem_permissionApis] at hnot
        simp [has_permission, hs, hne, hnot] at hall
      · intro hmem
        rw [← mem_permissionApis] at hmem
        simp [has_permission, hs, hne, hmem]
    · intro hnot
      rw [← mem_permissionApis] at hnot
      simp [has_permission, hs, hne, hnot]

/-- Concrete non-superuser holding one role that grants exactly
(GET, /widgets), used to exercise the permission theorem. -/
def widgetUser : User :=
  { id := 5, username := "alice", is_superuser := false,
    roles := [{ name := "viewer", apis := [{ method := "GET", path := "/widgets" }] }] }

/-- Witness for C4: the non-superuser widgetUser is allowed for the exact
pair (GET, /widgets) through its role. -/
theorem c4_has_permission_spec_witness :
    has_permission widgetUser "GET" "/widgets" = .allowed :=
  ((c4_has_permission_spec widgetUser "GET" "/widgets").2.2 rfl (by decide)).1.mpr
    (by decide)

/-! ## Deferred tasks: starlette.background.BackgroundTasks as consumed by
BgTasks (app/core/bgtask.py) -/

/-- Model of the starlette BackgroundTasks object the code instantiates in
`BgTasks.init_bg_tasks_obj`: an ordered list of queued tasks.  Tasks are
abstracted by an arbitrary type. -/
structure BackgroundTasks (α : Type) where
  tasks : List α
deriving Repr, DecidableEq

/-- starlette BackgroundTasks.add_task (called by BgTasks.add_task):
append one task to the list. -/
def BackgroundTasks.add_task {α : Type} (bg : BackgroundTasks α) (t : α) :
    BackgroundTasks α :=
  { bg with tasks := bg.tasks ++ [t] }

/-- Embedding of `BgTasks.execute_tasks`: read the BackgroundTasks object
from the context; if its task list is non-empty (`if bg_tasks.tasks:`),
await the object, which runs every queued task sequentially in list order
and leaves the task list in place (starlette BackgroundTasks never clears
`self.tasks`).  Returns the list of tasks executed by the call, in
execution order, together with the BackgroundTasks object as the call
leaves it. -/
def execute_tasks {α : Type} (bg : BackgroundTasks α) :
    List α × BackgroundTasks α :=
  if bg.tasks.isEmpty then ([], bg) else (bg.tasks, bg)

/-- C3 counterexample: start from a context whose queue holds one task.
The first drain executes that task, yet the queue afterwards is still
non-empty and a second drain executes the very same task again — refuting
the claim that the second drain finds an empty queue and executes no
task. -/
theorem c3_drain_not_idempotent :
    (execute_tasks (execute_tasks ({ tasks := [0] } : BackgroundTasks Nat)).2).1 = [0] ∧
    (execute_tasks ({ tasks := [0] } : BackgroundTasks Nat)).2.tasks ≠ [] := by
  decide

/-- C3 amended: draining is not idempotent.  `execute_tasks` leaves the
queue exactly as it found it, so a second drain on the same context
executes exactly the same tasks, in the same order, as the first. -/
theorem c3_execute_tasks_repeats {α : Type} (bg : BackgroundTasks α) :
    (execute_tasks bg).2 = bg ∧
    (execute_tasks (execute_tasks bg).2).1 = (execute_tasks bg).1 := by
  unfold execute_tasks
  by_cases h : bg.tasks.isEmpty <;> simp [h]

/-! ## BackGroundTaskMiddleware (app/core/middlewares.py, lines 19-78) -/

/-- One observable event in the background-task middleware's handling of a
request: the wrapped app finishes sending the response, or one deferred
task is executed. -/
inductive Event (α : Type) where
  | responseSent : Event α
  | taskExecuted (t : α) : Event α
deriving Repr, DecidableEq

/-- Folding add_task over a list appends the list to the queue. -/
theorem foldl_add_task {α : Type} (enq : List α) (init : BackgroundTasks α) :
    enq.foldl BackgroundTasks.add_task init = { tasks := init.tasks ++ enq } := by
  induction enq generalizing init with
  | nil => simp
  | cons h t ih => simp [BackgroundTasks.add_task, ih, List.append_assoc]

/-- Embedding of `BackGroundTaskMiddleware.__call__` on an http request
whose handler enqueues the tasks `enq` (via BgTasks.add_task, in that
order) while producing the response: before_request installs a fresh empty
BackgroundTasks object (`init_bg_tasks_obj`); `await response(...)` returns
only once the response has been fully sent, recorded as the responseSent
event; after_request then drains the queue with `execute_tasks`.  The
result is the trace of observable events, in order. -/
def middleware_call {α : Type} (enq : List α) : List (Event α) :=
  let bg0 : BackgroundTasks α := { tasks := [] }
  let bg1 := enq.foldl BackgroundTasks.add_task bg0
  let executed := (execute_tasks bg1).1
  Event.responseSent :: executed.map Event.taskExecuted

/-- C5: the deferred-task queue of a request is executed exactly once,
strictly after the response has been sent, with the tasks run sequentially
in exactly enqueue order: the middleware's event trace is responseSent
followed by one taskExecuted event per enqueued task, in order; and when
nothing was enqueued the trace is responseSent alone — no execution step is
performed on an empty queue. -/
theorem c5_middleware_trace {α : Type} (enq : List α) :
    middleware_call enq = Event.responseSent :: enq.map Event.taskExecuted ∧
    middleware_call ([] : List α) = [Event.responseSent] := by
  constructor
  · simp only [middleware_call, foldl_add_task]
    cases enq with
    | nil => simp [execute_tasks]
    | cons h t => simp [execute_tasks]
  · simp [middleware_call, execute_tasks]

/-! ## Request-context isolation (app/core/ctx.py) -/

/-- The per-request context cell holding the two ContextVars declared in
app/core/ctx.py: CTX_USER_ID (default 0) and CTX_BG_TASKS (default None).
contextvars semantics: ContextVar.get/set act on the Context of the task
currently running, and each request is handled in its own Context. -/
structure ReqCtx (α : Type) where
  userId : Int := 0
  bgTasks : Option (BackgroundTasks α) := none
deriving Repr, DecidableEq

/-- The context before any set: CTX_USER_ID.get() yields the default 0 and
CTX_BG_TASKS.get() yields the default None. -/
def ReqCtx.initial {α : Type} : ReqCtx α := {}

/-- One context operation a request performs on its own ContextVars:
CTX_USER_ID.set (done by AuthControl.is_authed), CTX_BG_TASKS.set of a
fresh empty object (BgTasks.init_bg_tasks_obj), or an append to the object
held in the context (BgTasks.add_task). -/
inductive CtxOp (α : Type) where
  | setUser (uid : Int) : CtxOp α
  | initTasks : CtxOp α
  | addTask (t : α) : CtxOp α
deriving Repr, DecidableEq

/-- Apply one operation to the request's own context cell.  addTask appends
to the BackgroundTasks object when one has been installed; the middleware
always runs initTasks before any addTask, so the Option is populated when
addTask runs. -/
def applyOp {α : Type} (c : ReqCtx α) : CtxOp α → ReqCtx α
  | .setUser uid => { c with userId := uid }
  | .initTasks => { c with bgTasks := some { tasks := [] } }
  | .addTask t => { c with bgTasks := c.bgTasks.map (fun bg => bg.add_task t) }

/-- The process-wide state: one isolated context cell per request id.  This
is the storage discipline contextvars gives the code: each request runs in
its own contextvars Context, so CTX_USER_ID and CTX_BG_TASKS denote a
separate cell per request even though the middleware object is shared. -/
def CtxStore (α : Type) : Type := Nat → ReqCtx α

/-- All cells start at the ContextVar defaults. -/
def CtxStore.initial {α : Type} : CtxStore α := fun _ => ReqCtx.initial

/-- Run a concurrent schedule: an arbitrary interleaving of context
operations, each tagged with the id of the request performing it.  Every
operation touches only the cell of its own request. -/
def runTrace {α : Type} (s : CtxStore α) (t : List (Nat × CtxOp α)) : CtxStore α :=
  t.foldl (fun s2 p => fun r => if r = p.1 then applyOp (s2 p.1) p.2 else s2 r) s

/-- The cell a request sees after any schedule is its own subtrace folded
over its own starting cell. -/
theorem runTrace_project {α : Type} (t : List (Nat × CtxOp α)) (s : CtxStore α)
    (r : Nat) :
    runTrace s t r =
      (t.filter (fun p => p.1 == r)).foldl (fun c p => applyOp c p.2) (s r) := by
  induction t generalizing s with
  | nil => rfl
  | cons p t ih =>
    show runTrace (fun r2 => if r2 = p.1 then applyOp (s p.1) p.2 else s r2) t r = _
    rw [ih]
    by_cases h : p.1 = r
    · subst h
      simp
    · simp [h, Ne.symm h]

/-- C1: context isolation across concurrent requests.  After any
interleaved schedule, the context observed by request r is exactly the
result of r's own operations applied in order to the initial context; the
operations of every other concurrent request are invisible to r.  Hence
two schedules agreeing on r's subtrace give r the same view: the user id
read inside r is never one set by another request, and r's task queue holds
exactly the tasks r itself enqueued. -/
theorem c1_context_isolation {α : Type} (t : List (Nat × CtxOp α)) (r : Nat) :
    runTrace CtxStore.initial t r =
      (t.filter (fun p => p.1 == r)).foldl (fun c p => applyOp c p.2) ReqCtx.initial ∧
    ∀ t2 : List (Nat × CtxOp α),
      t.filter (fun p => p.1 == r) = t2.filter (fun p => p.1 == r) →
      runTrace CtxStore.initial t r = runTrace CtxStore.initial t2 r := by
  constructor
  · exact runTrace_project t CtxStore.initial r
  · intro t2 hf
    rw [runTrace_project t CtxStore.initial r, runTrace_project t2 CtxStore.initial r,
      hf]

/-- Witness for C1: request 1 sees the same context under two interleavings
that differ only in request 2's position. -/
theorem c1_context_isolation_witness :
    runTrace CtxStore.initial
        [(1, (CtxOp.setUser 7 : CtxOp Nat)), (2, CtxOp.setUser 9)] 1 =
      runTrace CtxStore.initial
        [(2, (CtxOp.setUser 9 : CtxOp Nat)), (1, CtxOp.setUser 7)] 1 :=
  (c1_context_isolation [(1, (CtxOp.setUser 7 : CtxOp Nat)), (2, CtxOp.setUser 9)] 1).2
    [(2, CtxOp.setUser 9), (1, CtxOp.setUser 7)] rfl

/-! ## AuthControl.is_authed (app/core/dependency.py, lines 17-47) -/

/-- Outcome of `jwt.decode(token, SECRET_KEY, algorithms=JWT_ALGORITHM)` on
a credential string: decoded claims carrying the user_id claim (none when
the claim is absent), jwt.DecodeError, jwt.ExpiredSignatureError, or some
other exception, named by its repr. -/
inductive DecodeResult where
  | ok (userId : Option Int) : DecodeResult
  | decodeError : DecodeResult
  | expiredError : DecodeResult
  | otherError (exc : String) : DecodeResult
deriving Repr, DecidableEq

/-- An exception raised inside the try body of is_authed. -/
inductive PyExc where
  | jwtDecodeError : PyExc
  | jwtExpiredError : PyExc
  | http (statusCode : Nat) (detail : String) : PyExc
  | other (exc : String) : PyExc
deriving Repr, DecidableEq

/-- The rendered detail of the raised HTTPException: a literal message, or
the f-string repr of a caught exception (the catch-all clause formats the
caught exception). -/
inductive Detail where
  | msg (s : String) : Detail
  | rendered (e : PyExc) : Detail
deriving Repr, DecidableEq

/-- Result of AuthControl.is_authed: the resolved user together with the
user id published to CTX_USER_ID, or a raised HTTPException. -/
inductive AuthResult where
  | ok (u : User) (ctxUserId : Int) : AuthResult
  | err (statusCode : Nat) (detail : Detail) : AuthResult
deriving Repr, DecidableEq

/-- The try body of is_authed, before any except clause runs.  The
collaborators: `decode` is jwt.decode on the token; `firstUser` is
`User.filter().first()` (the dev bypass); `findUser` is
`User.filter(id=user_id).first()`.  The dev sentinel reads `.id` off the
first user (AttributeError when the table is empty); otherwise the token is
decoded and the user_id claim extracted; the user is then looked up, an
HTTPException(401, "Authentication failed") being raised when none is
found; finally the id is published with CTX_USER_ID.set(int(user_id)),
int(None) raising TypeError. -/
def is_authed_body (decode : String → DecodeResult) (firstUser : Option User)
    (findUser : Option Int → Option User) (token : String) :
    Except PyExc (User × Int) :=
  let uidE : Except PyExc (Option Int) :=
    if token = "dev" then
      match firstUser with
      | none => .error (.other "AttributeError")
      | some u => .ok (some u.id)
    else
      match decode token with
      | .ok uid => .ok uid
      | .decodeError => .error .jwtDecodeError
      | .expiredError => .error .jwtExpiredError
      | .otherError e => .error (.other e)
  match uidE with
  | .error e => .error e
  | .ok uid =>
      match findUser uid with
      | none => .error (.http 401 "Authentication failed")
      | some u =>
          match uid with
          | none => .error (.other "TypeError")
          | some n => .ok (u, n)

/-- Embedding of AuthControl.is_authed: run the try body, then dispatch the
except clauses in source order — jwt.DecodeError → 401 "无效的Token",
jwt.ExpiredSignatureError → 401 "登录已过期", and every other exception,
including the HTTPException(401, "Authentication failed") the body itself
raises on a failed user lookup, is caught by the final `except Exception`
clause and re-raised as 500 with the caught exception rendered. -/
def is_authed (decode : String → DecodeResult) (firstUser : Option User)
    (findUser : Option Int → Option User) (token : String) : AuthResult :=
  match is_authed_body decode firstUser findUser token with
  | .ok (u, uid) => .ok u uid
  | .error .jwtDecodeError => .err 401 (.msg "无效的Token")
  | .error .jwtExpiredError => .err 401 (.msg "登录已过期")
  | .error e => .err 500 (.rendered e)

/-- A datastore with no users at all. -/
def noUserDb : Option Int → Option User := fun _ => none

/-- C2: evaluation of is_authed at the decisive inputs.  A malformed token
yields 401 with the invalid-token message, an expired one yields 401 with
the expired message, and any other verification failure yields 500 with the
error rendered — but a well-formed token whose decoded user id matches no
stored identity does NOT fail with 401 as claimed: the
HTTPException(401, "Authentication failed") raised inside the try body is
caught by the blanket `except Exception` clause and re-raised as a 500
carrying the rendered 401 exception. -/
theorem c2_is_authed_taxonomy :
    is_authed (fun _ => DecodeResult.ok (some 7)) none noUserDb "welformed" =
      .err 500 (.rendered (.http 401 "Authentication failed")) ∧
    is_authed (fun _ => DecodeResult.decodeError) none noUserDb "garbage" =
      .err 401 (.msg "无效的Token") ∧
    is_authed (fun _ => DecodeResult.expiredError) none noUserDb "oldtoken" =
      .err 401 (.msg "登录已过期") ∧
    is_authed (fun _ => DecodeResult.otherError "ValueError()") none noUserDb "odd" =
      .err 500 (.rendered (.other "ValueError()")) :=
  ⟨rfl, rfl, rfl, rfl⟩

/-! ## HttpAuditLogMiddleware.get_response_body
(app/core/middlewares.py, lines 127-192) -/

/-- Python str.startswith, on the character sequences of the strings. -/
def startswith (p s : String) : Bool := p.data.isPrefixOf s.data

/-- A chunk yielded by response.body_iterator: bytes, or a str chunk that
the drain loop encodes with response.charset. -/
inductive Chunk where
  | bytes (b : List Nat) : Chunk
  | text (s : String) : Chunk
deriving Repr, DecidableEq

/-- Encode one chunk the way the drain loop does: bytes pass through, str
chunks are encoded with the response charset (the `enc` collaborator). -/
def encodeChunk (enc : String → List Nat) : Chunk → List Nat
  | .bytes b => b
  | .text s => enc s

/-- The body of a Response as get_response_body reads it: either the
response object has a `body` attribute holding the full bytes, or only a
body_iterator yielding chunks (streamed response). -/
inductive BodySource where
  | plain (b : List Nat) : BodySource
  | streamed (chunks : List Chunk) : BodySource
deriving Repr, DecidableEq

/-- The slice of a Response that get_response_body consumes and updates:
the declared content-length header (absent, or present with its integer
value) and the body source. -/
structure ResponseModel where
  contentLength : Option Nat
  source : BodySource
deriving Repr, DecidableEq

/-- A value get_response_body produces for logging: a Python value (parsed
JSON, the literal None of the exception handler, or the placeholder dict),
or the unparsed body bytes that lenient_json returns as-is. -/
inductive Captured where
  | pyVal (j : Json) : Captured
  | rawBytes (b : List Nat) : Captured
deriving Repr, Inhabited

/-- self.audit_log_paths as set in HttpAuditLogMiddleware.__init__. -/
def audit_log_paths : List String := ["/api/v1/auditlog/list"]

/-- self.max_body_size as set in __init__: 1024 * 1024 bytes. -/
def max_body_size : Nat := 1024 * 1024

/-- The dict returned when the declared content length exceeds the
ceiling. -/
def placeholder : Captured :=
  .pyVal (.obj [("code", .num 0), ("msg", .str "Response too large to log"),
    ("data", .null)])

/-- Embedding of lenient_json on the body bytes: try json.loads (the
`loads` collaborator); on success return the parsed value, on
ValueError/TypeError return the original value unchanged. -/
def lenient_json (loads : List Nat → Option Json) (v : List Nat) : Captured :=
  match loads v with
  | some j => .pyVal j
  | none => .rawBytes v

/-- dict.pop(key, None): drop the entry with the key. -/
def removeKey (key : String) (entries : List (String × Json)) :
    List (String × Json) :=
  entries.filter (fun kv => kv.1 != key)

/-- dict lookup: the entry with the key (entry lists have unique keys). -/
def lookupKey (key : String) (entries : List (String × Json)) : Option Json :=
  (entries.find? (fun kv => kv.1 == key)).map Prod.snd

/-- In-place replacement of the value stored under an existing key. -/
def setKey (key : String) (v : Json) (entries : List (String × Json)) :
    List (String × Json) :=
  entries.map (fun kv => if kv.1 == key then (kv.1, v) else kv)

/-- item.pop("response_body", None) over the embedded data list: when every
element is a dict the key is removed from each; a non-dict element has no
.pop and raises AttributeError, which the surrounding handler turns into
returning None. -/
def stripItems : List Json → Option (List Json)
  | [] => some []
  | .obj kvs :: rest =>
      (stripItems rest).map (fun r => .obj (removeKey "response_body" kvs) :: r)
  | _ :: _ => none

/-- The sensitive-path branch of get_response_body: data =
lenient_json(body); when data is a dict, pop "response_body" from it, and
when it holds a "data" key whose value is a list, pop "response_body" from
every element of that list; any exception inside this block (a non-dict
list element) yields None; non-dict data is returned unchanged. -/
def auditPathValue (loads : List Nat → Option Json) (body : List Nat) :
    Captured :=
  match lenient_json loads body with
  | .pyVal (.obj kvs) =>
      let kvs1 := removeKey "response_body" kvs
      match lookupKey "data" kvs1 with
      | some (.arr items) =>
          match stripItems items with
          | some items2 => .pyVal (.obj (setKey "data" (.arr items2) kvs1))
          | none => .pyVal .null
      | _ => .pyVal (.obj kvs1)
  | other => other

/-- The body-reading step of get_response_body: a response with a `body`
attribute is read directly; a streamed response is drained chunk by chunk
(str chunks encoded with the response charset) into body_chunks, the
body_iterator is replaced by _async_iter(body_chunks) — a fresh iterator
yielding exactly the buffered byte chunks — and the logged body is their
concatenation b"".join(body_chunks). -/
def readBody (enc : String → List Nat) (resp : ResponseModel) :
    List Nat × ResponseModel :=
  match resp.source with
  | .plain b => (b, resp)
  | .streamed chunks =>
      let body_chunks := chunks.foldl (fun acc c => acc ++ [encodeChunk enc c]) []
      (body_chunks.flatten,
        { resp with source := .streamed (body_chunks.map Chunk.bytes) })

/-- The capture path of get_response_body past the size check: read the
body (replacing a drained stream), then build the logged value — the
sensitive-path stripping on paths starting with an audit_log_paths entry,
plain lenient_json elsewhere. -/
def captureBody (loads : List Nat → Option Json) (enc : String → List Nat)
    (path : String) (resp : ResponseModel) : Captured × ResponseModel :=
  let r := readBody enc resp
  if audit_log_paths.any (fun p => startswith p path) then
    (auditPathValue loads r.1, r.2)
  else (lenient_json loads r.1, r.2)

/-- Embedding of get_response_body: when a content-length header is present
and its value exceeds max_body_size, return the placeholder dict and leave
the response untouched; otherwise read the body and build the logged
value. -/
def get_response_body (loads : List Nat → Option Json)
    (enc : String → List Nat) (path : String) (resp : ResponseModel) :
    Captured × ResponseModel :=
  match resp.contentLength with
  | some n =>
      if n > max_body_size then (placeholder, resp)
      else captureBody loads enc path resp
  | none => captureBody loads enc path resp

/-- The bytes the client receives from a response: the plain body, or the
concatenation of the stream chunks, str chunks being encoded with the
response charset by the sending layer. -/
def clientBytes (enc : String → List Nat) (resp : ResponseModel) : List Nat :=
  match resp.source with
  | .plain b => b
  | .streamed chunks => (chunks.map (encodeChunk enc)).flatten

/-- Appending one mapped element at a time is mapping. -/
theorem foldl_snoc_map {α β : Type} (f : α → β) (l : List α) (init : List β) :
    l.foldl (fun acc c => acc ++ [f c]) init = init ++ l.map f := by
  induction l generalizing init with
  | nil => simp
  | cons h t ih => simp [ih]

/-- The buffered body equals the client-visible bytes. -/
theorem readBody_fst (enc : String → List Nat) (resp : ResponseModel) :
    (readBody enc resp).1 = clientBytes enc resp := by
  cases resp with
  | mk cl src =>
    cases src with
    | plain b => rfl
    | streamed chunks => simp [readBody, clientBytes, foldl_snoc_map]

/-- Replacing the drained stream by the buffer leaves the client-visible
bytes unchanged. -/
theorem readBody_clientBytes (enc : String → List Nat) (resp : ResponseModel) :
    clientBytes enc (readBody enc resp).2 = clientBytes enc resp := by
  cases resp with
  | mk cl src =>
    cases src with
    | plain b => rfl
    | streamed chunks =>
        have hcomp : encodeChunk enc ∘ Chunk.bytes ∘ encodeChunk enc =
            encodeChunk enc := funext fun _ => rfl
        simp [readBody, clientBytes, foldl_snoc_map, List.map_map, hcomp]

/-- C7: for a streamed response, draining the body into a buffer and
installing the replacement iterator preserves the client-visible body
byte-for-byte: the replacement stream holds exactly the encoded chunks of
the original stream, in order and in full; the bytes the client receives
are unchanged; and the logged copy is the concatenation of those same
bytes. -/
theorem c7_stream_drain_preserves (enc : String → List Nat) (cl : Option Nat)
    (chunks : List Chunk) :
    (readBody enc { contentLength := cl, source := .streamed chunks }).2.source =
      .streamed ((chunks.map (encodeChunk enc)).map Chunk.bytes) ∧
    clientBytes enc
        (readBody enc { contentLength := cl, source := .streamed chunks }).2 =
      clientBytes enc { contentLength := cl, source := .streamed chunks } ∧
    (readBody enc { contentLength := cl, source := .streamed chunks }).1 =
      (chunks.map (encodeChunk enc)).flatten := by
  refine ⟨?_, readBody_clientBytes enc _, ?_⟩
  · simp [readBody, foldl_snoc_map]
  · rw [readBody_fst]
    simp [clientBytes]

/-- C8: a declared Content-Length strictly above 1 MiB (1048576 bytes)
makes the middleware log the placeholder marker and leave the body alone,
while a declared length at or below the ceiling lets the actual body be
read and captured for logging. -/
theorem c8_content_length_ceiling (loads : List Nat → Option Json)
    (enc : String → List Nat) (path : String) (resp : ResponseModel) (n : Nat)
    (h : resp.contentLength = some n) :
    (1048576 < n → get_response_body loads enc path resp = (placeholder, resp)) ∧
    (n ≤ 1048576 →
      get_response_body loads enc path resp = captureBody loads enc path resp) := by
  constructor
  · intro hn
    have hgt : max_body_size < n := by
      simpa [max_body_size] using hn
    simp [get_response_body, h, hgt]
  · intro hn
    have hng : ¬ max_body_size < n := by
      simp only [max_body_size]
      omega
    simp [get_response_body, h, hng]

/-- Witness for C8: a response declaring 2000000 bytes is logged as the
placeholder, one declaring 1048576 bytes is captured. -/
theorem c8_content_length_ceiling_witness :
    get_response_body (fun _ => none) (fun _ => []) "/x"
        { contentLength := some 2000000, source := .plain [65] } =
      (placeholder, { contentLength := some 2000000, source := .plain [65] }) ∧
    get_response_body (fun _ => none) (fun _ => []) "/x"
        { contentLength := some 1048576, source := .plain [65] } =
      captureBody (fun _ => none) (fun _ => []) "/x"
        { contentLength := some 1048576, source := .plain [65] } :=
  ⟨(c8_content_length_ceiling (fun _ => none) (fun _ => []) "/x"
      { contentLength := some 2000000, source := .plain [65] } 2000000 rfl).1
      (by decide),
   (c8_content_length_ceiling (fun _ => none) (fun _ => []) "/x"
      { contentLength := some 1048576, source := .plain [65] } 1048576 rfl).2
      (by decide)⟩

/-- C10: when the response declares no Content-Length the size ceiling is
not enforced: get_response_body always proceeds to buffer the entire body
and build the log value from the full client-visible byte sequence,
however large it is — the placeholder substitution happens only on a
declared length. -/
theorem c10_undeclared_length_not_capped (loads : List Nat → Option Json)
    (enc : String → List Nat) (path : String) (resp : ResponseModel)
    (h : resp.contentLength = none) :
    get_response_body loads enc path resp = captureBody loads enc path resp ∧
    (get_response_body loads enc path resp).1 =
      (if audit_log_paths.any (fun p => startswith p path) then
        auditPathValue loads (clientBytes enc resp)
      else lenient_json loads (clientBytes enc resp)) := by
  have h1 : get_response_body loads enc path resp = captureBody loads enc path resp := by
    simp [get_response_body, h]
  refine ⟨h1, ?_⟩
  rw [h1]
  unfold captureBody
  by_cases hc : audit_log_paths.any (fun p => startswith p path) <;>
    simp [hc, readBody_fst]

/-- Witness for C10: a response with no Content-Length header and a body of
1048600 bytes — well above the ceiling — is still fully captured. -/
theorem c10_undeclared_length_not_capped_witness :
    get_response_body (fun _ => none) (fun _ => []) "/big"
        { contentLength := none, source := .plain (List.replicate 1048600 7) } =
      captureBody (fun _ => none) (fun _ => []) "/big"
        { contentLength := none, source := .plain (List.replicate 1048600 7) } :=
  (c10_undeclared_length_not_capped (fun _ => none) (fun _ => []) "/big"
    { contentLength := none, source := .plain (List.replicate 1048600 7) } rfl).1

/-- Stripping the data items succeeds on a list of dicts and removes the
response_body key from each. -/
theorem stripItems_map_obj (items : List (List (String × Json))) :
    stripItems (items.map Json.obj) =
      some (items.map (fun kvs => Json.obj (removeKey "response_body" kvs))) := by
  induction items with
  | nil => rfl
  | cons h t ih => simp [stripItems, ih]

/-- C9: on a request whose path starts with the configured sensitive-list
prefix, whose body the middleware captures (any declared content length is
within the ceiling — declared lengths above it are logged as the
placeholder and never reach this branch), and whose captured body parses as
a JSON object, the logged copy has the response_body entry removed from the
top-level object and from every element of the embedded data list, while
the client-visible response bytes are unchanged. -/
theorem c9_sensitive_path_stripped (loads : List Nat → Option Json)
    (enc : String → List Nat) (path : String) (resp : ResponseModel)
    (kvs : List (String × Json)) (items : List (List (String × Json)))
    (hpath : audit_log_paths.any (fun p => startswith p path) = true)
    (hcl : ∀ n, resp.contentLength = some n → n ≤ 1048576)
    (hparse : loads (clientBytes enc resp) = some (.obj kvs))
    (hdata : lookupKey "data" (removeKey "response_body" kvs) =
      some (.arr (items.map Json.obj))) :
    (get_response_body loads enc path resp).1 =
      .pyVal (.obj (setKey "data"
        (.arr (items.map (fun e => Json.obj (removeKey "response_body" e))))
        (removeKey "response_body" kvs))) ∧
    clientBytes enc (get_response_body loads enc path resp).2 =
      clientBytes enc resp := by
  have h1 : get_response_body loads enc path resp = captureBody loads enc path resp := by
    cases hk : resp.contentLength with
    | none => simp [get_response_body, hk]
    | some n =>
        have hle := hcl n hk
        have hng : ¬ max_body_size < n := by
          simp only [max_body_size]
          omega
        simp [get_response_body, hk, hng]
  rw [h1]
  unfold captureBody
  constructor
  · simp only [hpath, if_true]
    unfold auditPathValue lenient_json
    rw [readBody_fst, hparse]
    simp [hdata, stripItems_map_obj]
  · simp only [hpath, if_true]
    exact readBody_clientBytes enc resp

/-- A concrete sensitive-list response body: a list envelope whose top
level and single data element both carry a response_body field. -/
def listEnvelope : Json :=
  .obj [("response_body", .str "big"),
    ("data", .arr [.obj [("id", .num 1), ("response_body", .str "x")]])]

/-- Witness for C9: on the sensitive path, a response with a declared
Content-Length of 1 byte — within the ceiling, the typical case for this
endpoint — is logged with both response_body fields stripped while the
client bytes stay unchanged. -/
theorem c9_sensitive_path_stripped_witness :
    (get_response_body (fun _ => some listEnvelope) (fun _ => [])
        "/api/v1/auditlog/list"
        { contentLength := some 1, source := .plain [123] }).1 =
      .pyVal (.obj (setKey "data"
        (.arr ([[("id", Json.num 1), ("response_body", Json.str "x")]].map
          (fun e => Json.obj (removeKey "response_body" e))))
        (removeKey "response_body"
          [("response_body", Json.str "big"),
            ("data", Json.arr [Json.obj
              [("id", Json.num 1), ("response_body", Json.str "x")]])]))) ∧
    clientBytes (fun _ => [])
        (get_response_body (fun _ => some listEnvelope) (fun _ => [])
          "/api/v1/auditlog/list"
          { contentLength := some 1, source := .plain [123] }).2 =
      clientBytes (fun _ => [])
        { contentLength := some 1, source := .plain [123] } :=
  c9_sensitive_path_stripped (fun _ => some listEnvelope) (fun _ => [])
    "/api/v1/auditlog/list" { contentLength := some 1, source := .plain [123] }
    [("response_body", .str "big"),
      ("data", .arr [.obj [("id", .num 1), ("response_body", .str "x")]])]
    [[("id", .num 1), ("response_body", .str "x")]]
    (by decide) (by intro n hn; injection hn with h; omega) rfl rfl

/-! ## HttpAuditLogMiddleware.get_request_args and log attribution
(app/core/middlewares.py, lines 100-125 and 214-225) -/

/-- Outcome of `await request.json()`: a parsed Python value, or
json.JSONDecodeError when the body is not valid JSON. -/
inductive JsonBodyResult where
  | ok (j : Json) : JsonBodyResult
  | jsonDecodeError : JsonBodyResult
deriving Repr, Inhabited

/-- Python hashability of json.loads values: lists and dicts are unhashable
and cannot become dict keys. -/
def hashable : Json → Bool
  | .arr _ => false
  | .obj _ => false
  | _ => true

/-- Equality of dict keys.  Only hashable values reach key position, and on
those Python == is structural equality (the numeric cross-type equality of
True and 1 is not modelled; no claim here compares such keys). -/
def keyEq : Json → Json → Bool
  | .null, .null => true
  | .bool a, .bool b => a == b
  | .num a, .num b => a == b
  | .str a, .str b => a == b
  | _, _ => false

/-- dict item assignment d[k] = v: replace the entry of an existing key in
place, or append a new entry. -/
def dictSet (d : List (Json × Json)) (k v : Json) : List (Json × Json) :=
  if d.any (fun kv => keyEq kv.1 k) then
    d.map (fun kv => if keyEq kv.1 k then (kv.1, v) else kv)
  else d ++ [(k, v)]

/-- One element of an update sequence, the way dict.update iterates it: a
two-element list whose first component is hashable, or a two-character
string whose characters become key and value; every other element raises
TypeError or ValueError. -/
def updatePair : Json → Option (Json × Json)
  | .arr [k, v] => if hashable k then some (k, v) else none
  | .str s =>
      match s.data with
      | [c1, c2] => some (.str (String.mk [c1]), .str (String.mk [c2]))
      | _ => none
  | _ => none

/-- Embedding of args.update(body) on a json.loads value: a dict merges its
entries in order; a list or a string is consumed as a sequence of key/value
pairs, raising on any element that is not pair-like; None, bools and
numbers are not iterable and raise TypeError.  A none result is an uncaught
exception. -/
def dictUpdate (d : List (Json × Json)) : Json → Option (List (Json × Json))
  | .obj entries =>
      some (entries.foldl (fun acc kv => dictSet acc (.str kv.1) kv.2) d)
  | .arr elems =>
      elems.foldlM
        (fun acc e => (updatePair e).map (fun kv => dictSet acc kv.1 kv.2)) d
  | .str s =>
      (s.data.map (fun c => Json.str (String.mk [c]))).foldlM
        (fun acc e => (updatePair e).map (fun kv => dictSet acc kv.1 kv.2)) d
  | _ => none

/-- Embedding of get_request_args: start from the query parameters, then
for POST/PUT/PATCH merge the request body: try request.json() and update
args with the parsed value — only json.JSONDecodeError is caught, in which
case request.form() is tried with every failure of that branch swallowed
(`except Exception: pass`); an update failure on a successfully parsed
non-mapping body propagates (result none: the middleware raises before the
handler runs and the request fails). -/
def get_request_args (method : String) (queryParams : List (String × String))
    (jsonBody : JsonBodyResult) (formBody : Option (List (String × String))) :
    Option (List (Json × Json)) :=
  let args := queryParams.foldl
    (fun acc kv => dictSet acc (.str kv.1) (.str kv.2)) []
  if method ∈ ["POST", "PUT", "PATCH"] then
    match jsonBody with
    | .ok body => dictUpdate args body
    | .jsonDecodeError =>
        match formBody with
        | some form =>
            some (form.foldl
              (fun acc kv => dictSet acc (.str kv.1) (.str kv.2)) args)
        | none => some args
  else some args

/-- The user-attribution step of get_request_log: when a token header is
present (and non-empty — Python truthiness of the header string), run
AuthControl.is_authed on it; any exception degrades to user_id=0 and
username="" instead of propagating; an absent or empty token yields the
same defaults. -/
def get_request_log_user (decode : String → DecodeResult)
    (firstUser : Option User) (findUser : Option Int → Option User)
    (token : Option String) : Int × String :=
  match token with
  | none => (0, "")
  | some t =>
      if t = "" then (0, "")
      else
        match is_authed decode firstUser findUser t with
        | .ok u _ => (u.id, u.username)
        | .err _ _ => (0, "")

/-- C6: the audit interceptor's bookkeeping is not failure-proof as
claimed.  The claimed degradations themselves hold — a JSON parse failure
falls back to the form body, a failure of both leaves only the query
arguments, a JSON object body merges, and log attribution degrades to
user_id=0 and username="" when authentication fails or no token is present
— but a POST body that is valid JSON without being a mapping, such as the
array [1, 2], passes the json.JSONDecodeError guard and then raises
uncaught from args.update, failing the primary request. -/
theorem c6_request_args_update_can_raise :
    get_request_args "POST" [] (.ok (.arr [.num 1, .num 2])) none = none ∧
    get_request_args "POST" [("q", "1")] .jsonDecodeError (some [("a", "b")]) =
      some [(.str "q", .str "1"), (.str "a", .str "b")] ∧
    get_request_args "POST" [("q", "1")] .jsonDecodeError none =
      some [(.str "q", .str "1")] ∧
    get_request_args "POST" [] (.ok (.obj [("k", .num 5)])) none =
      some [(.str "k", .num 5)] ∧
    get_request_log_user (fun _ => DecodeResult.decodeError) none noUserDb
      (some "badtoken") = (0, "") ∧
    get_request_log_user (fun _ => DecodeResult.ok (some 7)) none noUserDb
      none = (0, "") :=
  ⟨rfl, rfl, rfl, rfl, rfl, rfl⟩

end VueFastapiAdmin
